import Mathlib

/-!
# Verification of the CAPES periodicals scraper and bibliographic exporter

Shallow embedding of the scraping/extraction pipeline and bibliographic
exporter of the `periodicos-capes-mcp` repository
(`src/scraper.ts`, `src/openalex-service.ts`, `src/qualis-service.ts`,
`src/types.ts`, and the bibliographic exporter module).

Network effects are modelled by explicit parameters: a page fetch becomes a
function from page number to extracted listings, the Qualis lookup becomes a
function from ISSN to an optional record, the OpenAlex batch response becomes
a function from DOI to optional metrics, and a detail fetch becomes a
function from article id to an optional parsed page (with `none` standing
for a thrown/failed fetch).  JavaScript string truthiness (`""` is falsy,
`undefined` is falsy) is modelled with explicit `= ""` tests on `String` and
with `Option`.
-/

namespace Capes

/-! ## Data model (`src/types.ts`) -/

/-- `qualis` sub-object of `ArticleMetrics` (`src/types.ts`). -/
structure QualisInfo where
  classification : String
  area : String
  deriving DecidableEq, Repr

/-- `ArticleMetrics` (`src/types.ts`).  `fwci` is a floating-point number in
the source; its numeric value is never inspected by the code under
verification, so it is carried opaquely as an integer. -/
structure ArticleMetrics where
  cited_by_count : Nat
  fwci : Option Int := none
  publication_year : Nat
  is_open_access : Bool
  open_access_oa_date : Option String := none
  qualis : Option QualisInfo := none
  deriving DecidableEq, Repr

/-- `Article` (`src/types.ts`).  Optional string fields are `Option String`,
with `none` for an absent (`undefined`) field. -/
structure Article where
  title : String
  authors : List String := []
  publication_date : Option String := none
  doi : Option String := none
  journal : Option String := none
  abstract : Option String := none
  search_term : String
  article_id : Option String := none
  issn : Option String := none
  volume : Option String := none
  issue : Option String := none
  language : Option String := none
  publisher : Option String := none
  detail_url : Option String := none
  document_type : Option String := none
  is_open_access : Bool := false
  is_peer_reviewed : Bool := false
  metrics : Option ArticleMetrics := none
  deriving DecidableEq, Repr

/-- `BasicArticleInfo` (`src/types.ts`): one record extracted from a listing
page. -/
structure BasicArticleInfo where
  title : String
  article_id : Option String := none
  detail_url : Option String := none
  theme : String
  search_term : String
  journal : Option String := none
  publisher : Option String := none
  authors : Option (List String) := none
  document_type : Option String := none
  is_open_access : Option Bool := none
  is_peer_reviewed : Option Bool := none
  deriving DecidableEq, Repr

/-- Record returned by `QualisService.getQualisByISSN`
(`src/qualis-service.ts`). -/
structure QualisRecord where
  issn : String
  journal_name : Option String := none
  area : String
  classification : String
  deriving DecidableEq, Repr

/-! ## Metrics Merger (`CAPESScraper.enrichWithMetrics`, scraper.ts 509-571)

The first pass (Qualis) and the second pass (OpenAlex citation metrics)
mutate each article's `metrics` field in place; here each pass is a pure
function on one `Article`.  `lookup` models
`QualisService.getInstance().getQualisByISSN`, `year` models
`new Date().getFullYear()`, and `oa` models the per-DOI map returned by
`OpenAlexService.getMetricsByDOIs`. -/

/-- Quality pass of `enrichWithMetrics`: for an article with a truthy `issn`
whose Qualis lookup hits, attach the Qualis classification, creating a
zero-valued metrics shell if no metrics object exists yet. -/
def qualityPassArticle (lookup : String → Option QualisRecord) (year : Nat)
    (a : Article) : Article :=
  match a.issn with
  | none => a
  | some s =>
    if s = "" then a
    else
      match lookup s with
      | none => a
      | some q =>
        let base : ArticleMetrics :=
          match a.metrics with
          | some m => m
          | none =>
            { cited_by_count := 0
              publication_year := year
              is_open_access := false }
        { a with metrics := some { base with qualis := some ⟨q.classification, q.area⟩ } }

/-- Citation pass of `enrichWithMetrics`: for an article with a truthy `doi`
present in the OpenAlex response map, install the OpenAlex metrics; when a
metrics object already exists the spread `\x7b...openAlexMetrics, qualis:
article.metrics.qualis\x7d` keeps the previously set Qualis sub-object. -/
def citationPassArticle (oa : String → Option ArticleMetrics) (a : Article) : Article :=
  match a.doi with
  | none => a
  | some d =>
    if d = "" then a
    else
      match oa d with
      | none => a
      | some m =>
        match a.metrics with
        | none => { a with metrics := some m }
        | some old => { a with metrics := some { m with qualis := old.qualis } }

/-- `enrichWithMetrics` over a batch: Qualis pass first over every article,
then the OpenAlex citation pass (articles without a DOI, or whose DOI is
absent from the response, are left unchanged by the second pass). -/
def enrichWithMetrics (lookup : String → Option QualisRecord)
    (oa : String → Option ArticleMetrics) (year : Nat)
    (articles : List Article) : List Article :=
  (articles.map (qualityPassArticle lookup year)).map (citationPassArticle oa)

/-- The Qualis sub-object reachable from an article, if any. -/
def Article.qualisOf (a : Article) : Option QualisInfo :=
  a.metrics.bind fun m => m.qualis

/-! ## String helpers shared by the extractors and the exporter -/

/-- `text || undefined`: an empty string degrades to an absent field. -/
def strOrUndef (s : String) : Option String :=
  if s = "" then none else some s

/-- JavaScript `a || b` on an optional string `a` (absent or empty falls
through to `b`). -/
def jsOrStr (a b : Option String) : Option String :=
  match a with
  | some s => if s = "" then b else some s
  | none => b

/-- JavaScript `String.prototype.trim`: strip leading and trailing
whitespace (defined over the character list so that it is executable in the
kernel). -/
def jsTrim (s : String) : String :=
  ⟨((s.data.dropWhile Char.isWhitespace).reverse.dropWhile Char.isWhitespace).reverse⟩

/-- Character class of the trailing-junk regex `[;\s]*$`. -/
def isSemiOrWs (c : Char) : Bool :=
  c = ';' || c.isWhitespace

/-- `.replace(/[;\s]*$/, '')`: drop trailing semicolons and whitespace. -/
def dropTrailingSemiWs (s : String) : String :=
  ⟨(s.data.reverse.dropWhile isSemiOrWs).reverse⟩

/-- `.replace(/Label:\s*/, '')`: remove the first occurrence of `label`
together with the whitespace that follows it. -/
def replaceLabelWs (label : String) (s : String) : String :=
  match s.splitOn label with
  | [] => s
  | [x] => x
  | x :: y :: rest => x ++ String.intercalate label ((y.dropWhile Char.isWhitespace) :: rest)

/-- First match of the 4-digit-year regex `(\d\x7b4\x7d)` inside a character
list: the first position carrying four consecutive digits. -/
def findYear4 : List Char → Option (List Char)
  | [] => none
  | c :: rest =>
    let four := (c :: rest).take 4
    if four.length = 4 ∧ four.all Char.isDigit then some four
    else findYear4 rest

/-- `extractYear`: first 4-digit group of a date string (used both by the
detail extractor, scraper.ts 317-319, and by the exporter's
`extractYear`). -/
def extractYear (s : String) : Option String :=
  (findYear4 s.data).map fun l => ⟨l⟩

/-- Remainder of a character list after its first `>` character, if any. -/
def afterFirstGt : List Char → Option (List Char)
  | [] => none
  | c :: rest => if c = '>' then some rest else afterFirstGt rest

/-- `.replace(/<[^>]*>/g, '')`: remove every HTML tag (a `<`, any non-`>`
characters, then `>`); a `<` never followed by `>` is literal text, and then
so is everything after it, since no further match can close. -/
def stripTags : List Char → List Char
  | [] => []
  | c :: rest =>
    if c = '<' then
      match _h : afterFirstGt rest with
      | some tail => stripTags tail
      | none => c :: rest
    else c :: stripTags rest
termination_by l => l.length
decreasing_by
  · have hlt : ∀ (l t : List Char), afterFirstGt l = some t → t.length < l.length := by
      intro l
      induction l with
      | nil => intro t ht; simp [afterFirstGt] at ht
      | cons a as ih =>
        intro t ht
        by_cases ha : a = '>'
        · simp [afterFirstGt, ha] at ht
          subst ht; simp
        · simp [afterFirstGt, ha] at ht
          have := ih t ht
          simp; omega
    have := hlt rest _ _h
    simp; omega
  · simp

/-- `cleanAbstract` of the exporter: strip HTML tags, then trim. -/
def cleanAbstract (s : String) : String :=
  jsTrim (String.mk (stripTags s.data))

/-- Match of the DOI-capture regex `(10\.\d\x7b4,\x7d\/[^\s]+)` anchored at
the head of the list: `10.`, at least four digits (greedy), `/`, then a
non-empty run of non-whitespace. -/
def doiAt (l : List Char) : Option (List Char) :=
  if l.take 3 = ['1', '0', '.'] then
    let rest := l.drop 3
    let ds := rest.takeWhile Char.isDigit
    if ds.length < 4 then none
    else
      let after := rest.drop ds.length
      if after.head? = some '/' then
        let suf := after.tail.takeWhile (fun c => !c.isWhitespace)
        if suf.isEmpty then none
        else some ('1' :: '0' :: '.' :: (ds ++ '/' :: suf))
      else none
  else none

/-- Leftmost-match scan: try the anchored matcher at every position. -/
def scanFirst (f : List Char → Option (List Char)) : List Char → Option (List Char)
  | [] => none
  | l@(_ :: rest) =>
    match f l with
    | some r => some r
    | none => scanFirst f rest

/-- The precheck regex `10\.\d\x7b4,\x7d` anchored at the head. -/
def doiPreAt (l : List Char) : Bool :=
  l.take 3 = ['1', '0', '.'] ∧ 4 ≤ ((l.drop 3).takeWhile Char.isDigit).length

/-- `doiText.match(/10\.\d\x7b4,\x7d/)`: the precheck matches somewhere. -/
def doiPreSomewhere : List Char → Bool
  | [] => false
  | l@(_ :: rest) => doiPreAt l || doiPreSomewhere rest

/-- First match of the full DOI-capture regex in a string. -/
def findDoi (s : String) : Option String :=
  (scanFirst doiAt s.data).map fun l => ⟨l⟩

/-! ## HTML Fetcher (`CAPESScraper._fetchWithZyte`, scraper.ts 40-100)

One network attempt against the Zyte extraction proxy is modelled by its
outcome; the whole retry loop is a pure function of the per-attempt
outcomes.  Timing is modelled by recording the sequence of backoff sleeps
the loop performs. -/

/-- Outcome of one POST to the extraction proxy. -/
inductive ZyteOutcome where
  /-- 2xx response whose base64 body decodes to `html` -/
  | success (html : String)
  /-- HTTP 520, the proxy's designated temporary-ban status -/
  | blocked
  /-- any other non-success HTTP status -/
  | httpError (status : Nat)
  /-- `fetch` itself threw (network error) -/
  | netError
  deriving DecidableEq, Repr

/-- The error thrown inside the loop body and then wrapped by the catch. -/
inductive ZyteInner where
  /-- `Zyte API persistent 520 error after N retries` -/
  | persistent520 (retries : Nat)
  /-- `Zyte API error: status ...` -/
  | apiError (status : Nat)
  /-- a rethrown network error -/
  | network
  deriving DecidableEq, Repr

/-- Failure of `_fetchWithZyte` as surfaced to the caller. -/
inductive ZyteFailure where
  /-- missing `ZYTE_API_KEY` -/
  | missingKey
  /-- `Failed to fetch from Zyte for URL url: ...` — the permanent wrapped
  error, naming the original URL -/
  | wrapped (url : String) (inner : ZyteInner)
  /-- the unreachable fall-through after the loop -/
  | unexpected (url : String)
  deriving DecidableEq, Repr

/-- Observable behaviour of one `_fetchWithZyte` call: its result, the
number of attempts performed, and the backoff sleeps in order. -/
structure FetchTrace where
  result : Except ZyteFailure String
  attempts : Nat
  sleeps : List Nat
  deriving Repr

/-- `Math.min(1000 * Math.pow(2, attempt - 1), 30000)`: exponential backoff
starting at 1s, capped at 30s. -/
def backoffMs (attempt : Nat) : Nat :=
  min (1000 * 2 ^ (attempt - 1)) 30000

/-- The `for (attempt = 1; attempt <= maxRetries + 1; attempt++)` loop of
`_fetchWithZyte`.  `fuel` is the number of remaining loop iterations
(`maxRetries + 2 - attempt`); exhausting it reaches the unreachable
fall-through of line 99.  A 520 within budget sleeps and retries; a 520 out
of budget throws the persistent-520 error which the catch immediately
wraps; any other error is caught and, within budget, sleeps and retries,
otherwise is wrapped. -/
def zyteLoop (outcomes : Nat → ZyteOutcome) (url : String) (maxRetries : Nat) :
    Nat → Nat → List Nat → FetchTrace
  | 0, attempt, sleeps => ⟨.error (.unexpected url), attempt - 1, sleeps⟩
  | fuel + 1, attempt, sleeps =>
    match outcomes attempt with
    | .success html => ⟨.ok html, attempt, sleeps⟩
    | .blocked =>
      if attempt ≤ maxRetries then
        zyteLoop outcomes url maxRetries fuel (attempt + 1) (sleeps ++ [backoffMs attempt])
      else ⟨.error (.wrapped url (.persistent520 maxRetries)), attempt, sleeps⟩
    | .httpError s =>
      if attempt ≤ maxRetries then
        zyteLoop outcomes url maxRetries fuel (attempt + 1) (sleeps ++ [backoffMs attempt])
      else ⟨.error (.wrapped url (.apiError s)), attempt, sleeps⟩
    | .netError =>
      if attempt ≤ maxRetries then
        zyteLoop outcomes url maxRetries fuel (attempt + 1) (sleeps ++ [backoffMs attempt])
      else ⟨.error (.wrapped url .network), attempt, sleeps⟩

/-- `_fetchWithZyte(targetUrl, maxRetries = 3)`: requires the API key, then
runs the retry loop from attempt 1. -/
def fetchWithZyte (hasApiKey : Bool) (outcomes : Nat → ZyteOutcome)
    (url : String) (maxRetries : Nat := 3) : FetchTrace :=
  if hasApiKey then zyteLoop outcomes url maxRetries (maxRetries + 1) 1 []
  else ⟨.error .missingKey, 0, []⟩

/-! ## Detail-page field extraction (`CAPESScraper.scrapeArticleDetail`,
scraper.ts 293-363)

A fetched-and-parsed detail page is modelled by the raw texts the cheerio
selectors would return. -/

/-- The selector results feeding `scrapeArticleDetail`'s extractors. -/
structure DetailPage where
  /-- `content` attribute of `meta[name="abstract"]`; `none` when absent. -/
  abstractMeta : Option String := none
  /-- text of `#item-resumo` -/
  resumoText : String := ""
  /-- text of the `p.text-muted.mb-3.block` following the `ISSN` strong -/
  issnText : String := ""
  /-- text of `#item-instituicao` -/
  publisherText : String := ""
  /-- text of `#item-ano` -/
  yearText : String := ""
  /-- text of `#item-volume` -/
  volumeText : String := ""
  /-- text of `#item-issue` -/
  issueText : String := ""
  /-- text of `#item-language` -/
  languageText : String := ""
  /-- text of the first `p.small.text-muted.mb-3.block` -/
  doiText : String := ""
  /-- an element containing `Acesso aberto` exists -/
  hasAcessoAberto : Bool := false
  /-- a `.text-green-cool-vivid-50` element exists -/
  hasGreenClass : Bool := false
  /-- an element containing `Revisado por pares` exists -/
  hasRevisadoPares : Bool := false
  /-- a `.text-violet-50` element exists -/
  hasVioletClass : Bool := false
  /-- texts of the `a.view-autor.fst-italic` author links -/
  authorTexts : List String := []
  deriving DecidableEq, Repr

/-- The `Partial<Article>` metadata object built by `scrapeArticleDetail` on
a successfully fetched page.  `detail_url` is always set; every other string
field is `none` when its extraction yields nothing. -/
structure DetailFields where
  detail_url : String
  abstract : Option String := none
  issn : Option String := none
  publisher : Option String := none
  publication_date : Option String := none
  volume : Option String := none
  issue : Option String := none
  language : Option String := none
  doi : Option String := none
  is_open_access : Bool := false
  is_peer_reviewed : Bool := false
  authors : Option (List String) := none
  deriving DecidableEq, Repr

/-- `DETAIL_URL_PATTERN` with the article id substituted. -/
def detailUrlFor (articleId : String) : String :=
  "https://www.periodicos.capes.gov.br/index.php/acervo/buscador.html?task=detalhes&source=all&id="
    ++ articleId

/-- Field extraction of `scrapeArticleDetail` (success path, scraper.ts
300-358). -/
def scrapeDetailFields (detailUrl : String) (p : DetailPage) : DetailFields :=
  { detail_url := detailUrl
    abstract := jsOrStr p.abstractMeta (strOrUndef (jsTrim p.resumoText))
    issn := strOrUndef (jsTrim p.issnText)
    publisher := strOrUndef (jsTrim (dropTrailingSemiWs p.publisherText))
    publication_date := extractYear p.yearText
    volume := strOrUndef (jsTrim (dropTrailingSemiWs (replaceLabelWs "Volume:" p.volumeText)))
    issue := strOrUndef (jsTrim (dropTrailingSemiWs (replaceLabelWs "Issue:" p.issueText)))
    language := strOrUndef (jsTrim (dropTrailingSemiWs (replaceLabelWs "Linguagem:" p.languageText)))
    doi :=
      let t := jsTrim p.doiText
      if t ≠ "" ∧ doiPreSomewhere t.data then findDoi t else none
    is_open_access := p.hasAcessoAberto || p.hasGreenClass
    is_peer_reviewed := p.hasRevisadoPares || p.hasVioletClass
    authors :=
      let as := (p.authorTexts.map jsTrim).filter (fun s => s ≠ "")
      if as.isEmpty then none else some as }

/-- `scrapeArticleDetail`: fetch the detail page for an article id and
extract its fields; a thrown fetch/parse (`page = none`) is caught and
yields the empty partial object, modelled by `none`. -/
def scrapeArticleDetail (page : Option DetailPage) (articleId : String) :
    Option DetailFields :=
  page.map (scrapeDetailFields (detailUrlFor articleId))

/-! ## Detail Enricher merge (`fetchArticleDetails.processArticle`,
scraper.ts 459-488)

The merged article is the object literal: listing fields first, then the
spread `...details` (whose keys, when the fetch succeeded, are always
present and overwrite, even with an `undefined` value), then the explicit
`authors`/`is_open_access`/`is_peer_reviewed` fallbacks. -/

/-- The article built from one basic listing record and that record's detail
extraction (`none` = detail fetch wholly failed, the empty object). -/
def buildArticle (listing : BasicArticleInfo) (details : Option DetailFields) :
    Article :=
  match details with
  | none =>
    { title := listing.title
      search_term := listing.theme
      article_id := listing.article_id
      detail_url := listing.detail_url
      journal := listing.journal
      publisher := listing.publisher
      document_type := listing.document_type
      authors := []
      is_open_access := false
      is_peer_reviewed := false }
  | some d =>
    { title := listing.title
      search_term := listing.theme
      article_id := listing.article_id
      detail_url := some d.detail_url
      journal := listing.journal
      publisher := d.publisher
      document_type := listing.document_type
      abstract := d.abstract
      issn := d.issn
      publication_date := d.publication_date
      volume := d.volume
      issue := d.issue
      language := d.language
      doi := d.doi
      authors := d.authors.getD []
      is_open_access := d.is_open_access
      is_peer_reviewed := d.is_peer_reviewed }

/-! ## Listing Paginator (`CAPESScraper.getListingsForTerm`, scraper.ts
365-428)

A page fetch plus extraction is modelled by `pages : Nat → List
BasicArticleInfo` (page number to extracted records; `fetchPage` catches its
own errors and yields `[]` for a failed page, so a failed page is a page
mapped to `[]`).  The pagination summary is `totalItems`; `none` models an
absent summary element. -/

/-- The fixed CAPES page size. -/
def itemsPerPage : Nat := 30

/-- `getTotalPages` (scraper.ts 197-209): `ceil(totalItems / 30)` from the
pagination summary, `0` when the summary element is absent or empty. -/
def getTotalPages (totalItems : Option Nat) : Nat :=
  match totalItems with
  | some n => (n + itemsPerPage - 1) / itemsPerPage
  | none => 0

/-- `maxWorkers || 4`: the effective concurrency bound (a missing or zero —
falsy — value defaults to 4, so the bound is always at least 1). -/
def effWorkers (maxWorkers : Option Nat) : Nat :=
  match maxWorkers with
  | some w => if w = 0 then 4 else w
  | none => 4

/-- Observable behaviour of one `getListingsForTerm` call: the collected
records, the number of page fetches initiated (first page included), and
the size of each awaited batch of concurrent page fetches. -/
structure ListingRun where
  listings : List BasicArticleInfo
  pagesFetched : Nat
  batchSizes : List Nat

/-- `options.max_results && listings.length >= options.max_results`: the
early-return guard (a zero bound is falsy). -/
def maxResultsHit (maxResults : Option Nat) (len : Nat) : Bool :=
  match maxResults with
  | some r => (r != 0) && decide (r ≤ len)
  | none => false

/-- The `for (page = 2; page <= totalPages; page++)` loop of
`getListingsForTerm`: each page's fetch promise is pushed onto `pending`;
when `pending` reaches `workers` promises, or the current page is the last,
the batch is awaited (its results appended in order) and the early-return
guard is checked, truncating to the bound on hit. -/
def listingLoop (pages : Nat → List BasicArticleInfo) (maxResults : Option Nat)
    (workers : Nat) :
    List Nat → List Nat → List BasicArticleInfo → Nat → List Nat → ListingRun
  | [], _pending, acc, fetched, batches => ⟨acc, fetched, batches⟩
  | p :: rest, pending, acc, fetched, batches =>
    let pending' := pending ++ [p]
    let fetched' := fetched + 1
    if workers ≤ pending'.length ∨ rest = [] then
      let acc' := acc ++ (pending'.map pages).flatten
      let batches' := batches ++ [pending'.length]
      if maxResultsHit maxResults acc'.length then
        ⟨acc'.take (maxResults.getD 0), fetched', batches'⟩
      else
        listingLoop pages maxResults workers rest [] acc' fetched' batches'
    else
      listingLoop pages maxResults workers rest pending' acc fetched' batches

/-- `getListingsForTerm` (success path; the enclosing catch, which maps a
failure of the very first page fetch to `[]`, is not modelled): fetch page
1, clamp the page total by `max_pages` and by the page count needed for
`max_results`, early-return when page 1 already satisfies the bound, then
run the batched loop over pages `2..totalPages`. -/
def getListingsForTerm (totalItems : Option Nat)
    (pages : Nat → List BasicArticleInfo)
    (maxPages maxResults maxWorkers : Option Nat) : ListingRun :=
  let tp0 := getTotalPages totalItems
  let tp1 :=
    match maxPages with
    | some mp => if mp = 0 then tp0 else min tp0 mp
    | none => tp0
  let tp :=
    match maxResults with
    | some r => if r = 0 then tp1 else min tp1 ((r + itemsPerPage - 1) / itemsPerPage)
    | none => tp1
  let first := pages 1
  if maxResultsHit maxResults first.length then
    ⟨first.take (maxResults.getD 0), 1, []⟩
  else if 1 < tp then
    listingLoop pages maxResults (effWorkers maxWorkers) (List.range' 2 (tp - 1)) [] first 1 []
  else
    ⟨first, 1, []⟩

/-! ## Detail Enricher (`CAPESScraper.fetchArticleDetails`, scraper.ts
451-507) -/

/-- `articleListings.slice(i, i + workers)` batching: split a list into
consecutive chunks of size `workers` (the final chunk may be shorter).  A
zero width returns no chunks (the effective worker count is never zero,
see `effWorkers`). -/
def chunksOf (w : Nat) : List α → List (List α)
  | [] => []
  | c :: cs =>
    if _h : w = 0 then []
    else (c :: cs).take w :: chunksOf w ((c :: cs).drop w)
termination_by l => l.length
decreasing_by
  simp only [List.length_drop, List.length_cons]
  omega

/-- `processArticle` (scraper.ts 459-488): a listing without a truthy
article id yields `null`; otherwise the detail page is scraped (its own
errors degrade to the empty partial object) and merged. -/
def processArticle (detailPage : String → Option DetailPage)
    (listing : BasicArticleInfo) : Option Article :=
  match listing.article_id with
  | none => none
  | some id =>
    if id = "" then none
    else some (buildArticle listing (scrapeArticleDetail (detailPage id) id))

/-- `fetchArticleDetails`: process listings in concurrency batches of
`effWorkers maxWorkers`, keep the non-`null` results in order, then
optionally run the metrics enrichment. -/
def fetchArticleDetails (detailPage : String → Option DetailPage)
    (lookup : String → Option QualisRecord) (oa : String → Option ArticleMetrics)
    (year : Nat) (includeMetrics : Bool) (maxWorkers : Option Nat)
    (listings : List BasicArticleInfo) : List Article :=
  let articles :=
    ((chunksOf (effWorkers maxWorkers) listings).map
      (fun batch => (batch.map (processArticle detailPage)).reduceOption)).flatten
  if includeMetrics then enrichWithMetrics lookup oa year articles else articles

/-! ## `CAPESScraper.search` (scraper.ts 573-618) -/

/-- The options `search` consults (the filter options only shape the search
URL, which carries no observable behaviour in this embedding). -/
structure SearchOptions where
  query : String
  max_pages : Option Nat := none
  max_results : Option Nat := none
  full_details : Bool := false
  include_metrics : Bool := false

/-- `SearchResult` (`src/types.ts`). -/
structure SearchResult where
  articles : List Article
  total_found : Nat
  pages_processed : Nat
  query : String

/-- The basic-listing-to-`Article` projection of `search`'s
non-`full_details` branch (scraper.ts 597-608). -/
def basicToArticle (listing : BasicArticleInfo) : Article :=
  { title := listing.title
    authors := listing.authors.getD []
    search_term := listing.theme
    article_id := listing.article_id
    detail_url := listing.detail_url
    journal := listing.journal
    publisher := listing.publisher
    document_type := listing.document_type
    is_open_access := listing.is_open_access.getD false
    is_peer_reviewed := listing.is_peer_reviewed.getD false }

/-- `search`: collect listings, apply the `max_results` cut to the listings
handed to the detail phase, build articles (full details or basic
projection), and report `total_found` from the *uncut* listing count and
`pages_processed` as `options.max_pages || 0`. -/
def search (detailPage : String → Option DetailPage)
    (lookup : String → Option QualisRecord) (oa : String → Option ArticleMetrics)
    (year : Nat) (totalItems : Option Nat)
    (pages : Nat → List BasicArticleInfo)
    (options : SearchOptions) (maxWorkers : Option Nat) : SearchResult :=
  let run := getListingsForTerm totalItems pages options.max_pages
    options.max_results maxWorkers
  let articleListings := run.listings
  let limitedListings :=
    match options.max_results with
    | some r => if r = 0 then articleListings else articleListings.take r
    | none => articleListings
  let articles :=
    if options.full_details then
      fetchArticleDetails detailPage lookup oa year options.include_metrics
        maxWorkers limitedListings
    else
      limitedListings.map basicToArticle
  { articles := articles
    total_found := articleListings.length
    pages_processed := options.max_pages.getD 0
    query := options.query }

/-! ## Concurrency schedule (§5 of the design)

A bounded-concurrency batch schedule is abstracted as the list of batch
sizes; its in-flight profile replaces each batch of size `n` by `n` request
starts (`+1`) followed — only after all of them — by `n` completions
(`-1`), which is exactly the `Promise.all` await barrier: all operations of
a batch are started together and fully awaited before the next batch. -/

/-- In-flight increments of a batch schedule. -/
def batchProfile (sizes : List Nat) : List Int :=
  (sizes.map (fun n => List.replicate n (1 : Int) ++ List.replicate n (-1 : Int))).flatten

/-! ## Bibliographic Serializer (`BibliographicExporter`) -/

/-- `RIS_TYPE_MAPPING`: document type to RIS type code. -/
def risTypeMapping (t : String) : Option String :=
  if t = "Artigo" then some "JOUR"
  else if t = "Capítulo de livro" then some "CHAP"
  else if t = "Carta" then some "NEWS"
  else if t = "Errata" then some "JOUR"
  else if t = "Revisão" then some "JOUR"
  else none

/-- `getRISType`: mapped code, defaulting to `JOUR` for absent or unmapped
document types. -/
def getRISType (documentType : Option String) : String :=
  match documentType with
  | none => "JOUR"
  | some t => (risTypeMapping t).getD "JOUR"

/-- One optional tagged line: emitted only when the field is truthy. -/
def optLine (tag : String) (v : Option String) : List String :=
  match v with
  | some s => if s = "" then [] else [tag ++ s]
  | none => []

/-- The `notes` aggregate shared by the RIS `N1` tag and the BibTeX `note`
field: open-access / peer-review markers and the CAPES article id. -/
def risNotes (a : Article) : List String :=
  (if a.is_open_access then ["Open Access"] else [])
  ++ (if a.is_peer_reviewed then ["Peer Reviewed"] else [])
  ++ (match a.article_id with
      | some id => if id = "" then [] else ["CAPES ID: " ++ id]
      | none => [])

/-- The `PY` segment: emitted when the date is truthy and a 4-digit year is
found in it. -/
def pyLines (a : Article) : List String :=
  match a.publication_date with
  | some d =>
    if d = "" then []
    else
      match extractYear d with
      | some y => ["PY  - " ++ y]
      | none => []
  | none => []

/-- The `AB` segment: the tag-stripped, trimmed abstract when truthy. -/
def abLines (a : Article) : List String :=
  match a.abstract with
  | some ab => if ab = "" then [] else ["AB  - " ++ cleanAbstract ab]
  | none => []

/-- The `KW` segment: the originating search term. -/
def kwLines (a : Article) : List String :=
  if a.search_term = "" then [] else ["KW  - " ++ a.search_term]

/-- The `N1` segment: the aggregated notes, when any. -/
def n1Lines (a : Article) : List String :=
  if (risNotes a).isEmpty then []
  else ["N1  - " ++ String.intercalate "; " (risNotes a)]

/-- `convertArticleToRIS`, at the granularity of its `lines` array: `none`
for a title-less article (the source pushes the `TY` line first and then
discards the whole record by returning `null`, so the net effect is the
same); otherwise the tagged lines in emission order
TY TI AU* PY T2 JF VL IS AB DO SN PB LA UR KW N1 ER, each optional tag
emitted only when its field is truthy. -/
def risRecordLines (a : Article) : Option (List String) :=
  if a.title = "" then none
  else some (
    ["TY  - " ++ getRISType a.document_type, "TI  - " ++ a.title]
    ++ a.authors.map (fun au => "AU  - " ++ au)
    ++ pyLines a
    ++ optLine "T2  - " a.journal
    ++ optLine "JF  - " a.journal
    ++ optLine "VL  - " a.volume
    ++ optLine "IS  - " a.issue
    ++ abLines a
    ++ optLine "DO  - " a.doi
    ++ optLine "SN  - " a.issn
    ++ optLine "PB  - " a.publisher
    ++ optLine "LA  - " a.language
    ++ optLine "UR  - " a.detail_url
    ++ kwLines a
    ++ n1Lines a
    ++ ["ER  - "])

/-- `convertArticleToRIS`: the CRLF-joined record, or `null`. -/
def convertArticleToRIS (a : Article) : Option String :=
  (risRecordLines a).map (String.intercalate "\r\n")

/-- `exportToRIS`: records separated by blank lines, trailing newline. -/
def exportToRIS (articles : List Article) : String :=
  String.intercalate "\n\n" (articles.filterMap convertArticleToRIS) ++ "\n"

/-! ### RIS tagged-line readers (for the round-trip property) -/

/-- The payload of a tagged line (everything after `XX  - `). -/
def risPayload (line : String) : String :=
  ⟨line.data.drop 6⟩

/-- Does the line carry the given 6-character tag head (`XX  - `)? -/
def risHasTag (tag6 : String) (line : String) : Bool :=
  line.data.take 6 = tag6.data

/-- Read the title back from the emitted tagged lines. -/
def risParseTitle (lines : List String) : Option String :=
  (lines.find? (risHasTag "TI  - ")).map risPayload

/-- Read the authors, in order, back from the emitted tagged lines. -/
def risParseAuthors (lines : List String) : List String :=
  lines.filterMap fun l =>
    if risHasTag "AU  - " l then some (risPayload l) else none

/-- Read the publication year back from the emitted tagged lines. -/
def risParseYear (lines : List String) : Option String :=
  (lines.find? (risHasTag "PY  - ")).map risPayload

/-! ### BibTeX serialization -/

/-- `escapeBibTeXValue`: the seven sequential single-character global
replaces collapse to one character-level pass (the backslashes introduced
by a replace are never rewritten by a later one). -/
def escChar (c : Char) : List Char :=
  if c = '\\' then ['\\', '\\']
  else if c = '\x7b' then ['\\', '\x7b']
  else if c = '\x7d' then ['\\', '\x7d']
  else if c = '$' then ['\\', '$']
  else if c = '&' then ['\\', '&']
  else if c = '%' then ['\\', '%']
  else if c = '#' then ['\\', '#']
  else [c]

/-- LaTeX escaping of a BibTeX field value. -/
def escapeBibTeXValue (value : String) : String :=
  ⟨(value.data.map escChar).flatten⟩

/-- Characters kept by the citation-key regex `[^a-z0-9\s]` removal. -/
def bibKeyChar (c : Char) : Bool :=
  ('a' ≤ c && c ≤ 'z') || ('0' ≤ c && c ≤ '9') || c.isWhitespace

/-- `split(/\s+/)` on a character list (per-character split; the empty
segments a whitespace run produces are discarded by the length filter that
always follows). -/
def splitWs : List Char → List (List Char)
  | [] => [[]]
  | c :: rest =>
    if c.isWhitespace then [] :: splitWs rest
    else
      match splitWs rest with
      | [] => [[c]]
      | w :: ws => (c :: w) :: ws

/-- The first three lowercased alphanumeric title words longer than three
characters, for the citation key. -/
def bibTitleWords (title : String) : List (List Char) :=
  ((splitWs ((title.data.map Char.toLower).filter bibKeyChar)).filter
    (fun w => 3 < w.length)).take 3

/-- The year part of the citation key:
`extractYear(article.publication_date || '') || 'unknown'`. -/
def bibYear (a : Article) : String :=
  (extractYear (a.publication_date.getD "")).getD "unknown"

/-- The synthesized citation key: concatenated title words plus year. -/
def bibCitationKey (a : Article) : String :=
  (⟨(bibTitleWords a.title).flatten⟩ : String) ++ bibYear a

/-- `getBibTeXType`: entry type for a document type. -/
def getBibTeXType (documentType : Option String) : String :=
  let t := documentType.getD ""
  if t = "Artigo" then "article"
  else if t = "Capítulo de livro" then "inbook"
  else if t = "Carta" then "article"
  else if t = "Errata" then "article"
  else if t = "Revisão" then "article"
  else "article"

/-- One optional escaped BibTeX field line. -/
def bibField (name : String) (v : Option String) : List String :=
  match v with
  | some s =>
    if s = "" then []
    else ["  " ++ name ++ " = \x7b" ++ escapeBibTeXValue s ++ "\x7d,"]
  | none => []

/-- One optional unescaped BibTeX field line (doi, url). -/
def bibFieldRaw (name : String) (v : Option String) : List String :=
  match v with
  | some s =>
    if s = "" then []
    else ["  " ++ name ++ " = \x7b" ++ s ++ "\x7d,"]
  | none => []

/-- `convertArticleToBibTeX`: `null` for a title-less article, otherwise the
`@type\x7bkey, field = \x7bvalue\x7d, ...\x7d` entry. -/
def convertArticleToBibTeX (a : Article) : Option String :=
  if a.title = "" then none
  else some (String.intercalate "\n" (
    ["@" ++ getBibTeXType a.document_type ++ "\x7b" ++ bibCitationKey a ++ ","]
    ++ ["  title = \x7b" ++ escapeBibTeXValue a.title ++ "\x7d,"]
    ++ (if a.authors.isEmpty then []
        else ["  author = \x7b"
          ++ escapeBibTeXValue (String.intercalate " and " a.authors) ++ "\x7d,"])
    ++ bibField "journal" a.journal
    ++ (if bibYear a = "unknown" then []
        else ["  year = \x7b" ++ bibYear a ++ "\x7d,"])
    ++ bibField "volume" a.volume
    ++ bibField "number" a.issue
    ++ (match a.abstract with
        | some ab =>
          if ab = "" then []
          else ["  abstract = \x7b" ++ escapeBibTeXValue (cleanAbstract ab) ++ "\x7d,"]
        | none => [])
    ++ bibFieldRaw "doi" a.doi
    ++ bibFieldRaw "url" a.detail_url
    ++ bibField "publisher" a.publisher
    ++ bibField "language" a.language
    ++ (if (risNotes a).isEmpty then []
        else ["  note = \x7b"
          ++ escapeBibTeXValue (String.intercalate "; " (risNotes a)) ++ "\x7d,"])
    ++ ["\x7d"]))

/-- `exportToBibTeX`: entries separated by blank lines, trailing newline. -/
def exportToBibTeX (articles : List Article) : String :=
  String.intercalate "\n\n" (articles.filterMap convertArticleToBibTeX) ++ "\n"

end Capes

open Capes

/-- **C1.** For every article whose metrics object already carries a Qualis
sub-object set by the quality pass (ISSN truthy and Qualis lookup hit),
applying the citation pass afterwards leaves that Qualis sub-object
unchanged whenever the article has a DOI found in the citation service's
response: `merge(quality_pass(x), citation_pass(x)).qualis =
quality_pass(x).qualis`. -/
theorem C1_citation_pass_preserves_qualis
    (lookup : String → Option QualisRecord) (oa : String → Option ArticleMetrics)
    (year : Nat) (a : Article) (s : String) (q : QualisRecord) (d : String)
    (m : ArticleMetrics)
    (hissn : a.issn = some s) (hs : s ≠ "")
    (hq : lookup s = some q)
    (hdoi : a.doi = some d) (hd : d ≠ "")
    (hm : oa d = some m) :
    (citationPassArticle oa (qualityPassArticle lookup year a)).qualisOf
        = (qualityPassArticle lookup year a).qualisOf
      ∧ (qualityPassArticle lookup year a).qualisOf
        = some ⟨q.classification, q.area⟩ := by
  unfold qualityPassArticle
  rw [hissn]
  simp only [if_neg hs, hq]
  cases a.metrics with
  | none =>
    unfold citationPassArticle Article.qualisOf
    simp [hdoi, hd, hm]
  | some old =>
    unfold citationPassArticle Article.qualisOf
    simp [hdoi, hd, hm]

/-- Witness for C1 at a concrete article, lookup table and response map. -/
theorem C1_witness :
    (citationPassArticle
        (fun d => if d = "10.1234/x" then
          some { cited_by_count := 7, publication_year := 2020, is_open_access := true }
          else none)
        (qualityPassArticle
          (fun s => if s = "1234-5678" then
            some { issn := "1234-5678", area := "CS", classification := "A1" }
            else none)
          2024
          { title := "T", search_term := "q", issn := some "1234-5678",
            doi := some "10.1234/x" })).qualisOf
      = some ⟨"A1", "CS"⟩ := by
  have h := C1_citation_pass_preserves_qualis
    (fun s => if s = "1234-5678" then
      some { issn := "1234-5678", area := "CS", classification := "A1" }
      else none)
    (fun d => if d = "10.1234/x" then
      some { cited_by_count := 7, publication_year := 2020, is_open_access := true }
      else none)
    2024
    { title := "T", search_term := "q", issn := some "1234-5678",
      doi := some "10.1234/x" }
    "1234-5678"
    { issn := "1234-5678", area := "CS", classification := "A1" }
    "10.1234/x"
    { cited_by_count := 7, publication_year := 2020, is_open_access := true }
    rfl (by decide) (by simp) rfl (by decide) (by simp)
  exact h.1.trans h.2

/-! ### Helper lemmas about the string extractors -/

theorem strOrUndef_ne_some_empty (s : String) : strOrUndef s ≠ some "" := by
  unfold strOrUndef
  split
  · simp
  · rename_i h
    exact fun hc => h (Option.some.inj hc)

theorem jsOrStr_ne_some_empty (a b : Option String) (hb : b ≠ some "") :
    jsOrStr a b ≠ some "" := by
  cases a with
  | none => simpa [jsOrStr] using hb
  | some s =>
    by_cases hs : s = ""
    · simpa [jsOrStr, hs] using hb
    · simp only [jsOrStr, if_neg hs]
      exact fun hc => hs (Option.some.inj hc)

theorem findYear4_length : ∀ (l r : List Char), findYear4 l = some r → r.length = 4 := by
  intro l
  induction l with
  | nil => intro r hr; simp [findYear4] at hr
  | cons c rest ih =>
    intro r hr
    rw [findYear4] at hr
    split at hr
    · rename_i h
      cases hr
      exact h.1
    · exact ih r hr

theorem extractYear_ne_some_empty (s : String) : extractYear s ≠ some "" := by
  unfold extractYear
  intro h
  rcases Option.map_eq_some'.mp h with ⟨l, hl, hmk⟩
  have hlen : l.length = 4 := findYear4_length _ _ hl
  have hnil : l = [] := by
    have h2 := congrArg String.data hmk
    simpa using h2
  rw [hnil] at hlen
  simp at hlen

theorem doiAt_shape (l r : List Char) (h : doiAt l = some r) : r ≠ [] := by
  simp only [doiAt] at h
  split at h
  · split at h
    · exact absurd h (by simp)
    · split at h
      · split at h
        · exact absurd h (by simp)
        · cases h; simp
      · exact absurd h (by simp)
  · exact absurd h (by simp)

theorem scanFirst_src (f : List Char → Option (List Char)) :
    ∀ (l r : List Char), scanFirst f l = some r → ∃ l', f l' = some r := by
  intro l
  induction l with
  | nil => intro r hr; simp [scanFirst] at hr
  | cons c rest ih =>
    intro r hr
    rw [scanFirst] at hr
    split at hr
    · rename_i heq
      cases hr
      exact ⟨c :: rest, heq⟩
    · exact ih r hr

theorem findDoi_ne_some_empty (s : String) : findDoi s ≠ some "" := by
  unfold findDoi
  intro h
  rcases Option.map_eq_some'.mp h with ⟨l, hl, hmk⟩
  rcases scanFirst_src doiAt _ _ hl with ⟨l', hl'⟩
  have hne := doiAt_shape l' l hl'
  have : l = [] := by
    have := congrArg String.data hmk
    simpa using this
  exact hne this

/-! ### C7: extraction yields absent fields, never empty strings -/

/-- **C7.** For every detail page, every optional field of the extracted
metadata other than `title`/`search_term` is absent (`none`) rather than the
empty string when its extraction fails, no value is fabricated, and
extraction is a total function (it cannot throw); in particular a page whose
ISSN element is missing (empty selector text) yields `issn = none`. -/
theorem C7_extraction_absent_not_empty (url : String) (p : DetailPage) :
    (scrapeDetailFields url p).abstract ≠ some ""
  ∧ (scrapeDetailFields url p).issn ≠ some ""
  ∧ (scrapeDetailFields url p).publisher ≠ some ""
  ∧ (scrapeDetailFields url p).publication_date ≠ some ""
  ∧ (scrapeDetailFields url p).volume ≠ some ""
  ∧ (scrapeDetailFields url p).issue ≠ some ""
  ∧ (scrapeDetailFields url p).language ≠ some ""
  ∧ (scrapeDetailFields url p).doi ≠ some ""
  ∧ (scrapeDetailFields url p).authors ≠ some []
  ∧ (jsTrim p.issnText = "" → (scrapeDetailFields url p).issn = none) := by
  refine ⟨?_, ?_, ?_, ?_, ?_, ?_, ?_, ?_, ?_, ?_⟩
  · exact jsOrStr_ne_some_empty _ _ (strOrUndef_ne_some_empty _)
  · exact strOrUndef_ne_some_empty _
  · exact strOrUndef_ne_some_empty _
  · exact extractYear_ne_some_empty _
  · exact strOrUndef_ne_some_empty _
  · exact strOrUndef_ne_some_empty _
  · exact strOrUndef_ne_some_empty _
  · show (if jsTrim p.doiText ≠ "" ∧ doiPreSomewhere (jsTrim p.doiText).data then
        findDoi (jsTrim p.doiText) else none) ≠ some ""
    split
    · exact findDoi_ne_some_empty _
    · simp
  · show (if ((p.authorTexts.map jsTrim).filter (fun s => s ≠ "")).isEmpty then
        none else some ((p.authorTexts.map jsTrim).filter (fun s => s ≠ ""))) ≠ some []
    split
    · simp
    · rename_i h
      simp only [List.isEmpty_iff] at h
      simpa using h
  · intro h
    show strOrUndef (jsTrim p.issnText) = none
    simp [strOrUndef, h]

/-- Witness for C7: a page lacking an ISSN element yields `issn = none` and
nonempty-string-freeness of the DOI field, at a concrete page. -/
theorem C7_witness :
    (scrapeDetailFields "u" { yearText := "Ano: 2021" }).issn = none
  ∧ (scrapeDetailFields "u" { yearText := "Ano: 2021" }).publication_date ≠ some "" := by
  have h := C7_extraction_absent_not_empty "u" { yearText := "Ano: 2021" }
  exact ⟨h.2.2.2.2.2.2.2.2.2 (by decide), h.2.2.2.1⟩

/-! ### C4: merge policy of the Detail Enricher (corrected) -/

/-- Counterexample to C4 as stated: the claim's clause "a field for which
the detail page yields no value retains the listing value" is false.  When
the detail fetch succeeds but the page yields no publisher,
`scrapeArticleDetail` still assigns `metadata.publisher = undefined`, so the
spread `...details` clobbers the listing publisher — the merged article's
publisher is absent, not `"ListingPub"`.  Likewise the listing-derived
open-access flag is never used as a fallback: a successfully fetched page
without markers yields `false` even when the listing flag was `true`. -/
theorem C4_counterexample :
    (buildArticle
        { title := "T", theme := "q", search_term := "q",
          publisher := some "ListingPub" }
        (some { detail_url := "du" })).publisher = none
  ∧ (buildArticle
        { title := "T", theme := "q", search_term := "q",
          is_open_access := some true }
        (some { detail_url := "du" })).is_open_access = false := by
  exact ⟨rfl, rfl⟩

/-- **C4 (amended).** In `processArticle`'s merge: the detail extraction is
written through wholesale for the fields it carries — the merged
`publisher`, `detail_url`, `authors` and both boolean flags equal the
detail-side values (so a present detail value takes precedence over the
listing value, but a detail field that yielded no value *clobbers* the
listing value with absent rather than retaining it, and the listing-derived
authors/flags are never used as a fallback); only fields the detail object
never carries (`document_type`, `journal`, `title`) retain the listing
value; and when the detail fetch wholly fails (`details = none`) the
authors default to `[]`, the two boolean flags to `false`, and the listing
fields (including `publisher`) are retained. -/
theorem C4_merge_policy (listing : BasicArticleInfo) (d : DetailFields) :
    (buildArticle listing (some d)).publisher = d.publisher
  ∧ (buildArticle listing (some d)).detail_url = some d.detail_url
  ∧ (buildArticle listing (some d)).authors = d.authors.getD []
  ∧ (buildArticle listing (some d)).is_open_access = d.is_open_access
  ∧ (buildArticle listing (some d)).is_peer_reviewed = d.is_peer_reviewed
  ∧ (buildArticle listing (some d)).document_type = listing.document_type
  ∧ (buildArticle listing (some d)).journal = listing.journal
  ∧ (buildArticle listing (some d)).title = listing.title
  ∧ (buildArticle listing none).authors = []
  ∧ (buildArticle listing none).is_open_access = false
  ∧ (buildArticle listing none).is_peer_reviewed = false
  ∧ (buildArticle listing none).document_type = listing.document_type
  ∧ (buildArticle listing none).journal = listing.journal
  ∧ (buildArticle listing none).publisher = listing.publisher
  ∧ (buildArticle listing none).title = listing.title :=
  ⟨rfl, rfl, rfl, rfl, rfl, rfl, rfl, rfl, rfl, rfl, rfl, rfl, rfl, rfl, rfl⟩

/-! ### C3: retry-with-backoff policy of the extraction-proxy fetch -/

theorem zyteLoop_step_retry (outcomes : Nat → ZyteOutcome) (url : String)
    (maxRetries fuel attempt : Nat) (sleeps : List Nat)
    (h : outcomes attempt = .blocked) (hle : attempt ≤ maxRetries) :
    zyteLoop outcomes url maxRetries (fuel + 1) attempt sleeps
      = zyteLoop outcomes url maxRetries fuel (attempt + 1)
          (sleeps ++ [backoffMs attempt]) := by
  rw [zyteLoop, h, if_pos hle]

theorem zyteLoop_step_success (outcomes : Nat → ZyteOutcome) (url html : String)
    (maxRetries fuel attempt : Nat) (sleeps : List Nat)
    (h : outcomes attempt = .success html) :
    zyteLoop outcomes url maxRetries (fuel + 1) attempt sleeps
      = ⟨.ok html, attempt, sleeps⟩ := by
  rw [zyteLoop, h]

theorem zyteLoop_all_blocked (outcomes : Nat → ZyteOutcome) (url : String)
    (maxRetries : Nat) (hall : ∀ k, outcomes k = .blocked) :
    ∀ (fuel attempt : Nat) (sleeps : List Nat),
      attempt + fuel = maxRetries + 2 → 1 ≤ attempt → attempt ≤ maxRetries + 1 →
      zyteLoop outcomes url maxRetries fuel attempt sleeps
        = ⟨.error (.wrapped url (.persistent520 maxRetries)), maxRetries + 1,
            sleeps ++ (List.range' attempt (maxRetries + 1 - attempt)).map backoffMs⟩ := by
  intro fuel
  induction fuel with
  | zero => intro attempt sleeps hsum h1 hle; omega
  | succ f ih =>
    intro attempt sleeps hsum h1 hle
    rw [zyteLoop, hall attempt]
    by_cases hc : attempt ≤ maxRetries
    · rw [if_pos hc, ih (attempt + 1) _ (by omega) (by omega) (by omega)]
      have hr : maxRetries + 1 - attempt = (maxRetries - attempt) + 1 := by omega
      rw [hr, List.range'_succ, List.map_cons, List.append_assoc]
      have : maxRetries + 1 - (attempt + 1) = maxRetries - attempt := by omega
      rw [this]
      rfl
    · have ha : attempt = maxRetries + 1 := by omega
      rw [if_neg hc, ha]
      simp

/-- **C3.** The extraction-proxy fetch retries the designated
temporarily-blocked status (HTTP 520) up to `maxRetries` times (default 3)
with exponential backoff starting at 1000ms and capped at 30000ms, and
after exhausting the budget fails permanently with a wrapped error naming
the original URL; when the proxy is blocked on the first two attempts and
succeeds on the third (within the default budget 3), the fetch succeeds
with exactly 3 attempts, no error surfaced, and exactly the two backoff
sleeps 1000ms and 2000ms. -/
theorem C3_zyte_retry_policy (outcomes : Nat → ZyteOutcome) (url html : String)
    (maxRetries : Nat) :
    backoffMs 1 = 1000
  ∧ (∀ a, backoffMs a ≤ 30000)
  ∧ ((∀ k, outcomes k = .blocked) →
      fetchWithZyte true outcomes url maxRetries
        = ⟨.error (.wrapped url (.persistent520 maxRetries)), maxRetries + 1,
            (List.range' 1 maxRetries).map backoffMs⟩)
  ∧ (outcomes 1 = .blocked → outcomes 2 = .blocked → outcomes 3 = .success html →
      fetchWithZyte true outcomes url 3 = ⟨.ok html, 3, [1000, 2000]⟩) := by
  refine ⟨rfl, fun a => Nat.min_le_right _ _, ?_, ?_⟩
  · intro hall
    unfold fetchWithZyte
    rw [if_pos rfl, zyteLoop_all_blocked outcomes url maxRetries hall (maxRetries + 1) 1 []
      (by omega) (by omega) (by omega)]
    simp
  · intro h1 h2 h3
    unfold fetchWithZyte
    rw [if_pos rfl]
    rw [zyteLoop_step_retry outcomes url 3 3 1 [] h1 (by omega)]
    rw [zyteLoop_step_retry outcomes url 3 2 2 _ h2 (by omega)]
    rw [zyteLoop_step_success outcomes url html 3 1 3 _ h3]
    rfl

/-- Witness for C3: a proxy that is always blocked exhausts the default
budget with sleeps 1000/2000/4000ms and fails with the wrapped error, and a
proxy blocked exactly twice succeeds on the third attempt. -/
theorem C3_witness :
    fetchWithZyte true (fun _ => .blocked) "u" 3
      = ⟨.error (.wrapped "u" (.persistent520 3)), 4, [1000, 2000, 4000]⟩
  ∧ fetchWithZyte true (fun k => if k ≤ 2 then .blocked else .success "H") "u" 3
      = ⟨.ok "H", 3, [1000, 2000]⟩ := by
  constructor
  · exact ((C3_zyte_retry_policy (fun _ => .blocked) "u" "H" 3).2.2.1
      (fun _ => rfl)).trans rfl
  · exact (C3_zyte_retry_policy (fun k => if k ≤ 2 then .blocked else .success "H")
      "u" "H" 3).2.2.2 rfl rfl rfl

/-! ### Helper lemmas for the Listing Paginator -/

theorem effWorkers_pos (maxWorkers : Option Nat) : 1 ≤ effWorkers maxWorkers := by
  cases maxWorkers with
  | none => simp [effWorkers]
  | some w =>
    by_cases hw : w = 0
    · simp [effWorkers, hw]
    · simp only [effWorkers, if_neg hw]
      omega

theorem flatten_const_length (pages : Nat → List BasicArticleInfo) :
    ∀ (l : List Nat), (∀ q ∈ l, (pages q).length = 30) →
      ((l.map pages).flatten).length = 30 * l.length := by
  intro l
  induction l with
  | nil => intro _; simp
  | cons q qs ih =>
    intro h
    have hq : (pages q).length = 30 := h q (by simp)
    have hqs := ih (fun x hx => h x (by simp [hx]))
    simp only [List.map_cons, List.flatten_cons, List.length_append, hq, hqs,
      List.length_cons]
    ring

theorem listingLoop_spec (pages : Nat → List BasicArticleInfo) (R workers : Nat)
    (hw : 1 ≤ workers) :
    ∀ (remaining pending : List Nat) (acc : List BasicArticleInfo)
      (fetched : Nat) (batches : List Nat),
      (∀ q ∈ pending ++ remaining, (pages q).length = 30) →
      acc.length < R →
      pending.length < workers →
      (remaining = [] → pending = []) →
      (∀ b ∈ batches, b ≤ workers) →
      ((listingLoop pages (some R) workers remaining pending acc fetched
            batches).listings.length
          = min R (acc.length + 30 * (pending.length + remaining.length))
        ∧ (listingLoop pages (some R) workers remaining pending acc fetched
            batches).pagesFetched ≤ fetched + remaining.length
        ∧ (∀ b ∈ (listingLoop pages (some R) workers remaining pending acc fetched
            batches).batchSizes, b ≤ workers)) := by
  intro remaining
  induction remaining with
  | nil =>
    intro pending acc fetched batches hpages hacc hpend hinv hbat
    have hp0 : pending = [] := hinv rfl
    subst hp0
    refine ⟨?_, ?_, ?_⟩
    · show acc.length
        = min R (acc.length + 30 * (([] : List Nat).length + ([] : List Nat).length))
      simp only [List.length_nil]
      omega
    · show fetched ≤ fetched + ([] : List Nat).length
      simp
    · show ∀ b ∈ batches, b ≤ workers
      exact hbat
  | cons p rest ih =>
    intro pending acc fetched batches hpages hacc hpend hinv hbat
    simp only [listingLoop]
    by_cases hflush : workers ≤ (pending ++ [p]).length ∨ rest = []
    · rw [if_pos hflush]
      have hlen' : (acc ++ ((pending ++ [p]).map pages).flatten).length
          = acc.length + 30 * (pending.length + 1) := by
        rw [List.length_append,
          flatten_const_length pages (pending ++ [p])
            (fun q hq => hpages q (by simp at hq ⊢; tauto))]
        simp
      by_cases hhit :
          maxResultsHit (some R) (acc ++ ((pending ++ [p]).map pages).flatten).length = true
      · rw [if_pos hhit]
        simp only [maxResultsHit, Bool.and_eq_true, bne_iff_ne, ne_eq,
          decide_eq_true_eq] at hhit
        refine ⟨?_, by simp, ?_⟩
        · simp only [Option.getD_some, List.length_take, hlen', List.length_cons]
          omega
        · intro b hb
          simp only [List.mem_append, List.mem_singleton, List.length_append,
            List.length_cons, List.length_nil] at hb
          rcases hb with hb | hb
          · exact hbat b hb
          · omega
      · rw [if_neg hhit]
        simp only [maxResultsHit, Bool.and_eq_true, bne_iff_ne, ne_eq,
          decide_eq_true_eq, not_and, not_le] at hhit
        have hRne : R ≠ 0 := by omega
        have hacc' : (acc ++ ((pending ++ [p]).map pages).flatten).length < R :=
          hhit hRne
        have hres := ih [] (acc ++ ((pending ++ [p]).map pages).flatten)
          (fetched + 1) (batches ++ [(pending ++ [p]).length])
          (fun q hq => hpages q (by simp at hq ⊢; tauto))
          hacc' (by simpa using hw) (fun _ => rfl)
          (by
            intro b hb
            simp only [List.mem_append, List.mem_singleton, List.length_append,
              List.length_cons, List.length_nil] at hb
            rcases hb with hb | hb
            · exact hbat b hb
            · omega)
        refine ⟨?_, ?_, hres.2.2⟩
        · rw [hres.1, hlen']
          simp only [List.length_nil, List.length_cons]
          omega
        · have := hres.2.1
          simp only [List.length_nil, List.length_cons] at this ⊢
          omega
    · rw [if_neg hflush]
      push_neg at hflush
      obtain ⟨hwlt, hrest⟩ := hflush
      have hres := ih (pending ++ [p]) acc (fetched + 1) batches
        (fun q hq => hpages q (by simp at hq ⊢; tauto))
        hacc (by simpa using hwlt) (fun h => absurd h hrest) hbat
      refine ⟨?_, ?_, hres.2.2⟩
      · rw [hres.1]
        simp only [List.length_append, List.length_cons, List.length_nil]
        omega
      · have := hres.2.1
        simp only [List.length_cons] at this ⊢
        omega

/-! ### C2: the Listing Paginator returns min(R, totalAvailable) records in
at most ceil(R/30) page fetches -/

/-- **C2.** For a result bound `R > 0` and `N ≥ 1` listing pages of exactly
30 records each (summary total `30 * N`, `max_pages` unset), the Listing
Paginator returns exactly `min R (30 * N)` basic records and initiates at
most `⌈R / 30⌉` page fetches. -/
theorem C2_listing_paginator (N R : Nat) (pages : Nat → List BasicArticleInfo)
    (maxWorkers : Option Nat) (hN : 1 ≤ N) (hR : 1 ≤ R)
    (hpages : ∀ k, 1 ≤ k → k ≤ N → (pages k).length = 30) :
    (getListingsForTerm (some (30 * N)) pages none (some R)
        maxWorkers).listings.length = min R (30 * N)
  ∧ (getListingsForTerm (some (30 * N)) pages none (some R)
        maxWorkers).pagesFetched ≤ (R + 29) / 30 := by
  have h1 : (pages 1).length = 30 := hpages 1 (by omega) hN
  have htp0 : getTotalPages (some (30 * N)) = N := by
    simp only [getTotalPages, itemsPerPage]
    omega
  have hR0 : ¬(R = 0) := by omega
  by_cases hhit : maxResultsHit (some R) (pages 1).length = true
  · -- early return after page 1: R ≤ 30
    have hR30 : R ≤ 30 := by
      simp only [maxResultsHit, Bool.and_eq_true, bne_iff_ne, ne_eq,
        decide_eq_true_eq, h1] at hhit
      omega
    have hres : getListingsForTerm (some (30 * N)) pages none (some R) maxWorkers
        = ⟨(pages 1).take R, 1, []⟩ := by
      simp only [getListingsForTerm]
      rw [if_pos hhit]
      rfl
    rw [hres]
    constructor
    · show ((pages 1).take R).length = min R (30 * N)
      simp only [List.length_take, h1]
      omega
    · show 1 ≤ (R + 29) / 30
      omega
  · have hR30 : 30 < R := by
      simp only [maxResultsHit, Bool.and_eq_true, bne_iff_ne, ne_eq,
        decide_eq_true_eq, h1, not_and, not_le] at hhit
      exact hhit hR0
    by_cases htp : 1 < min N ((R + 30 - 1) / 30)
    · -- batched loop over pages 2..tp
      have hres : getListingsForTerm (some (30 * N)) pages none (some R) maxWorkers
          = listingLoop pages (some R) (effWorkers maxWorkers)
              (List.range' 2 (min N ((R + 30 - 1) / 30) - 1)) [] (pages 1) 1 [] := by
        simp only [getListingsForTerm, htp0, itemsPerPage]
        rw [if_neg hhit, if_neg hR0, if_pos htp]
      have hloop := listingLoop_spec pages R (effWorkers maxWorkers)
        (effWorkers_pos maxWorkers)
        (List.range' 2 (min N ((R + 30 - 1) / 30) - 1)) [] (pages 1) 1 []
        (by
          intro q hq
          simp only [List.nil_append, List.mem_range'_1] at hq
          have hqN : q ≤ N := by omega
          exact hpages q (by omega) hqN)
        (by omega)
        (by simpa using effWorkers_pos maxWorkers)
        (by
          intro hemp
          exact absurd hemp (by simp [List.range'_eq_nil]; omega))
        (by simp)
      rw [hres]
      constructor
      · rw [hloop.1, h1]
        simp only [List.length_nil, List.length_range']
        omega
      · have := hloop.2.1
        simp only [List.length_range'] at this
        omega
    · -- totalPages clamps to 1: page 1 only
      have hres : getListingsForTerm (some (30 * N)) pages none (some R) maxWorkers
          = ⟨pages 1, 1, []⟩ := by
        simp only [getListingsForTerm, htp0, itemsPerPage]
        rw [if_neg hhit, if_neg hR0, if_neg htp]
      rw [hres]
      constructor
      · show (pages 1).length = min R (30 * N)
        rw [h1]
        omega
      · show 1 ≤ (R + 29) / 30
        omega

/-- Witness for C2 at the spec scenario: 3 available pages of 30 records
each and `max_results = 45` yield exactly 45 records from exactly 2
initiated page fetches. -/
theorem C2_witness :
    (getListingsForTerm (some 90)
        (fun _ => List.replicate 30 { title := "T", theme := "q", search_term := "q" })
        none (some 45) none).listings.length = 45
  ∧ (getListingsForTerm (some 90)
        (fun _ => List.replicate 30 { title := "T", theme := "q", search_term := "q" })
        none (some 45) none).pagesFetched = 2 := by
  constructor
  · have h := C2_listing_paginator 3 45
      (fun _ => List.replicate 30 { title := "T", theme := "q", search_term := "q" })
      none (by omega) (by omega) (fun k _ _ => by simp)
    simpa using h.1
  · rfl

/-! ### C9: bounded-concurrency batching -/

theorem chunksOf_length_le {α : Type} (w : Nat) :
    ∀ (n : Nat) (l : List α), l.length ≤ n →
      ∀ c ∈ chunksOf w l, c.length ≤ w := by
  intro n
  induction n with
  | zero =>
    intro l hl c hc
    have hnil : l = [] := List.eq_nil_of_length_eq_zero (by omega)
    subst hnil
    simp [chunksOf] at hc
  | succ n ih =>
    intro l hl c hc
    cases l with
    | nil => simp [chunksOf] at hc
    | cons x xs =>
      rw [chunksOf] at hc
      split at hc
      · simp at hc
      · rename_i hw
        simp only [List.mem_cons] at hc
        rcases hc with hc | hc
        · subst hc
          exact List.length_take_le _ _
        · refine ih ((x :: xs).drop w) ?_ c hc
          simp only [List.length_drop, List.length_cons] at hl ⊢
          omega

theorem listingLoop_batchSizes (pages : Nat → List BasicArticleInfo)
    (maxResults : Option Nat) (workers : Nat) (hw : 1 ≤ workers) :
    ∀ (remaining pending : List Nat) (acc : List BasicArticleInfo)
      (fetched : Nat) (batches : List Nat),
      pending.length < workers → (∀ b ∈ batches, b ≤ workers) →
      ∀ b ∈ (listingLoop pages maxResults workers remaining pending acc fetched
          batches).batchSizes, b ≤ workers := by
  intro remaining
  induction remaining with
  | nil =>
    intro pending acc fetched batches _ hbat b hb
    exact hbat b hb
  | cons p rest ih =>
    intro pending acc fetched batches hpend hbat b hb
    simp only [listingLoop] at hb
    by_cases hflush : workers ≤ (pending ++ [p]).length ∨ rest = []
    · rw [if_pos hflush] at hb
      have hbat' : ∀ x ∈ batches ++ [(pending ++ [p]).length], x ≤ workers := by
        intro x hx
        simp only [List.mem_append, List.mem_singleton, List.length_append,
          List.length_cons, List.length_nil] at hx
        rcases hx with hx | hx
        · exact hbat x hx
        · omega
      split at hb
      · exact hbat' b hb
      · exact ih [] _ _ _ (by simpa using hw) hbat' b hb
    · rw [if_neg hflush] at hb
      push_neg at hflush
      exact ih (pending ++ [p]) _ _ _ (by simpa using hflush.1) hbat b hb

theorem getListings_batchSizes (totalItems : Option Nat)
    (pages : Nat → List BasicArticleInfo) (maxPages maxResults maxWorkers : Option Nat) :
    ∀ b ∈ (getListingsForTerm totalItems pages maxPages maxResults
        maxWorkers).batchSizes, b ≤ effWorkers maxWorkers := by
  intro b hb
  simp only [getListingsForTerm] at hb
  split at hb
  · simp at hb
  · split at hb
    · exact listingLoop_batchSizes pages maxResults (effWorkers maxWorkers)
        (effWorkers_pos maxWorkers) _ [] _ 1 []
        (by simpa using effWorkers_pos maxWorkers) (by simp) b hb
    · simp at hb

theorem batchProfile_take_sum_le (W : Nat) :
    ∀ (sizes : List Nat), (∀ n ∈ sizes, n ≤ W) →
      ∀ (k : Nat), ((batchProfile sizes).take k).sum ≤ (W : Int) := by
  intro sizes
  induction sizes with
  | nil =>
    intro _ k
    simp [batchProfile]
  | cons n rest ih =>
    intro h k
    have hn : n ≤ W := h n (by simp)
    have hrest := ih (fun x hx => h x (by simp [hx])) (k - n - n)
    simp only [batchProfile, List.map_cons, List.flatten_cons, List.append_assoc]
    rw [List.take_append_eq_append_take, List.sum_append,
      List.take_append_eq_append_take, List.sum_append,
      List.take_replicate, List.take_replicate]
    simp only [List.length_replicate, List.sum_replicate, nsmul_eq_mul, mul_one,
      mul_neg_one]
    simp only [batchProfile] at hrest
    rcases le_or_lt k (2 * n) with hk | hk
    · have h0 : k - n - n = 0 := by omega
      rw [h0, List.take_zero, List.sum_nil]
      push_cast
      omega
    · have e1 : min k n = n := by omega
      have e2 : min (k - n) n = n := by omega
      rw [e1, e2]
      generalize hS : (((rest.map fun n =>
        List.replicate n (1 : Int) ++ List.replicate n (-1 : Int)).flatten).take
          (k - n - n)).sum = S at hrest ⊢
      omega

/-- **C9.** Concurrency is batch-shaped with bound `W = effWorkers
maxWorkers`: the Detail Enricher's slicing yields batches of at most `W`
operations, every batch awaited by the Listing Paginator's loop has at most
`W` page fetches, and the in-flight profile of any schedule of such batches
(all operations of a batch started together, all awaited before the next
batch starts) never exceeds `W` requests at any instant — in particular for
exactly the two batch schedules the code produces. -/
theorem C9_bounded_concurrency (maxWorkers : Option Nat)
    (listings : List BasicArticleInfo) (totalItems : Option Nat)
    (pages : Nat → List BasicArticleInfo) (maxPages maxResults : Option Nat) :
    (∀ c ∈ chunksOf (effWorkers maxWorkers) listings,
        c.length ≤ effWorkers maxWorkers)
  ∧ (∀ b ∈ (getListingsForTerm totalItems pages maxPages maxResults
        maxWorkers).batchSizes, b ≤ effWorkers maxWorkers)
  ∧ (∀ k, ((batchProfile ((chunksOf (effWorkers maxWorkers) listings).map
        List.length)).take k).sum ≤ (effWorkers maxWorkers : Int))
  ∧ (∀ k, ((batchProfile ((getListingsForTerm totalItems pages maxPages
        maxResults maxWorkers).batchSizes)).take k).sum
      ≤ (effWorkers maxWorkers : Int)) := by
  have h1 := chunksOf_length_le (effWorkers maxWorkers) listings.length listings
    (le_refl _)
  have h2 := getListings_batchSizes totalItems pages maxPages maxResults maxWorkers
  refine ⟨h1, h2, ?_, ?_⟩
  · intro k
    apply batchProfile_take_sum_le
    intro n hn
    rcases List.mem_map.mp hn with ⟨c, hc, rfl⟩
    exact h1 c hc
  · intro k
    exact batchProfile_take_sum_le _ _ h2 k

/-- Witness for C9 at a concrete batch schedule and listing set. -/
theorem C9_witness :
    (∀ c ∈ chunksOf (effWorkers none)
        (List.replicate 5 ({ title := "T", theme := "q", search_term := "q" } :
          BasicArticleInfo)), c.length ≤ effWorkers none)
  ∧ ((batchProfile [4, 1]).take 5).sum ≤ ((4 : Nat) : Int) := by
  have h := C9_bounded_concurrency none
    (List.replicate 5 { title := "T", theme := "q", search_term := "q" })
    none (fun _ => []) none none
  refine ⟨h.1, ?_⟩
  exact batchProfile_take_sum_le 4 [4, 1] (by decide) 5

/-! ### C6: Detail Enricher drop policy -/

theorem chunksOf_processed {α β : Type} (w : Nat) (hw : 1 ≤ w) (f : α → Option β) :
    ∀ (n : Nat) (l : List α), l.length ≤ n →
      ((chunksOf w l).map (fun batch => (batch.map f).reduceOption)).flatten
        = (l.map f).reduceOption := by
  intro n
  induction n with
  | zero =>
    intro l hl
    have hnil : l = [] := List.eq_nil_of_length_eq_zero (by omega)
    subst hnil
    simp [chunksOf]
  | succ n ih =>
    intro l hl
    cases l with
    | nil => simp [chunksOf]
    | cons x xs =>
      rw [chunksOf]
      rw [dif_neg (by omega)]
      have hdrop := ih ((x :: xs).drop w)
        (by simp only [List.length_drop, List.length_cons] at hl ⊢; omega)
      conv_lhs => rw [List.map_cons, List.flatten_cons, hdrop]
      simp only [List.reduceOption]
      rw [← List.filterMap_append, ← List.map_append, List.take_append_drop]

theorem enrich_length (lookup : String → Option QualisRecord)
    (oa : String → Option ArticleMetrics) (year : Nat) (articles : List Article) :
    (enrichWithMetrics lookup oa year articles).length = articles.length := by
  simp [enrichWithMetrics]

/-- **C6 (amended).** In the Detail Enricher, a basic record lacking a
truthy article identifier yields `null` from `processArticle` and never
appears in the output, and the output is exactly the ordered per-record
`filterMap` (so per-record drops never affect sibling records); but a
record whose detail *fetch fails* is **not** dropped — `scrapeArticleDetail`
catches the error and returns the empty partial object, so the record is
returned built from its listing fields with default authors/flags. -/
theorem C6_drop_policy (detailPage : String → Option DetailPage)
    (lookup : String → Option QualisRecord) (oa : String → Option ArticleMetrics)
    (year : Nat) (maxWorkers : Option Nat) (listings : List BasicArticleInfo) :
    fetchArticleDetails detailPage lookup oa year false maxWorkers listings
      = (listings.map (processArticle detailPage)).reduceOption
  ∧ (∀ l : BasicArticleInfo, l.article_id = none →
      processArticle detailPage l = none)
  ∧ (∀ (l : BasicArticleInfo) (id : String), l.article_id = some id → id ≠ "" →
      processArticle detailPage l
        = some (buildArticle l (scrapeArticleDetail (detailPage id) id)))
  ∧ (fetchArticleDetails detailPage lookup oa year true maxWorkers
      listings).length
    = ((listings.map (processArticle detailPage)).reduceOption).length := by
  have hflat := chunksOf_processed (effWorkers maxWorkers)
    (effWorkers_pos maxWorkers) (processArticle detailPage)
    listings.length listings (le_refl _)
  refine ⟨?_, ?_, ?_, ?_⟩
  · simp only [fetchArticleDetails, if_neg (by simp : ¬(False = True))]
    exact hflat
  · intro l hl
    simp [processArticle, hl]
  · intro l id hid hne
    simp [processArticle, hid, hne]
  · simp [fetchArticleDetails, hflat, enrich_length]

/-- Counterexample to C6 as stated: a record with a valid identifier whose
detail fetch wholly fails is *returned* (with listing fields and default
authors/flags), not dropped, so "every per-record failure yields null and
is dropped" is false for fetch errors. -/
theorem C6_counterexample :
    fetchArticleDetails (fun _ => none) (fun _ => none) (fun _ => none) 0 false
        none [{ title := "T", theme := "q", search_term := "q", article_id := some "A1" }]
      = [buildArticle { title := "T", theme := "q", search_term := "q", article_id := some "A1" } none] := by
  have h := C6_drop_policy (fun _ => none) (fun _ => none) (fun _ => none) 0 none
    [{ title := "T", theme := "q", search_term := "q", article_id := some "A1" }]
  rw [h.1]
  rw [List.map_singleton,
    h.2.2.1 { title := "T", theme := "q", search_term := "q", article_id := some "A1" }
      "A1" rfl (by decide)]
  rfl

/-! ### C10: `search` reporting -/

/-- **C10.** A completed `search` reports `total_found` as the number of
basic listings the paginator collected (before the `max_results` cut is
applied to the articles actually returned) and `pages_processed` as the
caller's `max_pages` option (`0` when unset), independently of how many
pages were fetched. -/
theorem C10_search_reporting (detailPage : String → Option DetailPage)
    (lookup : String → Option QualisRecord) (oa : String → Option ArticleMetrics)
    (year : Nat) (totalItems : Option Nat)
    (pages : Nat → List BasicArticleInfo) (options : SearchOptions)
    (maxWorkers : Option Nat) :
    (search detailPage lookup oa year totalItems pages options
        maxWorkers).total_found
      = (getListingsForTerm totalItems pages options.max_pages
          options.max_results maxWorkers).listings.length
  ∧ (search detailPage lookup oa year totalItems pages options
        maxWorkers).pages_processed = options.max_pages.getD 0
  ∧ (search detailPage lookup oa year totalItems pages options
        maxWorkers).query = options.query :=
  ⟨rfl, rfl, rfl⟩

/-! ### C5: title-less records are skipped by both serializers -/

theorem convertArticleToRIS_eq_none_iff (a : Article) :
    convertArticleToRIS a = none ↔ a.title = "" := by
  unfold convertArticleToRIS risRecordLines
  split
  · simpa
  · rename_i h
    simpa using h

theorem convertArticleToBibTeX_eq_none_iff (a : Article) :
    convertArticleToBibTeX a = none ↔ a.title = "" := by
  unfold convertArticleToBibTeX
  split
  · simpa
  · rename_i h
    simpa using h

theorem filterMap_title_gated {β : Type} (f : Article → Option β)
    (hf : ∀ a, f a = none ↔ a.title = "") :
    ∀ (articles : List Article),
      (articles.filterMap f).length
          = articles.length - (articles.filter (fun a => a.title == "")).length
      ∧ articles.filterMap f
          = (articles.filter (fun a => !(a.title == ""))).filterMap f := by
  intro articles
  induction articles with
  | nil => simp
  | cons a rest ih =>
    have hle : (rest.filter (fun a => a.title == "")).length ≤ rest.length :=
      List.length_filter_le _ _
    by_cases ht : a.title = ""
    · have hfa : f a = none := (hf a).mpr ht
      refine ⟨?_, ?_⟩
      · simp [List.filterMap_cons, hfa, ht, ih.1]
      · simp [List.filterMap_cons, hfa, ht, ih.2]
    · obtain ⟨b, hb⟩ : ∃ b, f a = some b := by
        cases hfb : f a with
        | none => exact absurd ((hf a).mp hfb) ht
        | some b => exact ⟨b, rfl⟩
      refine ⟨?_, ?_⟩
      · simp [List.filterMap_cons, hb, ht, ih.1]
        omega
      · simp [List.filterMap_cons, hb, ht, ih.2]

/-- **C5.** Both serializers emit no record for a title-less article: the
emitted record count is the input count minus the count of title-less
inputs, and the emitted records are exactly those of the titled inputs (in
order). -/
theorem C5_title_required (articles : List Article) :
    (articles.filterMap convertArticleToRIS).length
        = articles.length - (articles.filter (fun a => a.title == "")).length
  ∧ (articles.filterMap convertArticleToBibTeX).length
        = articles.length - (articles.filter (fun a => a.title == "")).length
  ∧ articles.filterMap convertArticleToRIS
        = (articles.filter (fun a => !(a.title == ""))).filterMap convertArticleToRIS
  ∧ articles.filterMap convertArticleToBibTeX
        = (articles.filter (fun a => !(a.title == ""))).filterMap
            convertArticleToBibTeX := by
  have h1 := filterMap_title_gated convertArticleToRIS
    convertArticleToRIS_eq_none_iff articles
  have h2 := filterMap_title_gated convertArticleToBibTeX
    convertArticleToBibTeX_eq_none_iff articles
  exact ⟨h1.1, h2.1, h1.2, h2.2⟩

/-! ### C8: RIS round-trip of title, authors and year; TY first, ER last -/

theorem strMk_data (s : String) : String.mk s.data = s := by
  cases s
  rfl

theorem tagline_take6 (tag s : String) (h : tag.data.length = 6) :
    (tag ++ s).data.take 6 = tag.data := by
  rw [String.data_append, ← h, List.take_left]

theorem risPayload_append (tag s : String) (h : tag.data.length = 6) :
    risPayload (tag ++ s) = s := by
  unfold risPayload
  rw [String.data_append, ← h, List.drop_left]

theorem risHasTag_append_true (tag s : String) (h : tag.data.length = 6) :
    risHasTag tag (tag ++ s) = true := by
  unfold risHasTag
  rw [tagline_take6 tag s h]
  simp

theorem risHasTag_append_false (tagA tag s : String) (h : tag.data.length = 6)
    (hne : tag.data ≠ tagA.data) :
    risHasTag tagA (tag ++ s) = false := by
  unfold risHasTag
  rw [tagline_take6 tag s h]
  simp [hne]

theorem optLine_shape (tag : String) (v : Option String) :
    ∀ l ∈ optLine tag v, ∃ s, l = tag ++ s := by
  intro l hl
  unfold optLine at hl
  cases v with
  | none => simp at hl
  | some s =>
    by_cases hs : s = ""
    · simp [hs] at hl
    · simp [hs] at hl
      exact ⟨s, hl⟩

theorem pyLines_shape (a : Article) : ∀ l ∈ pyLines a, ∃ s, l = "PY  - " ++ s := by
  intro l hl
  unfold pyLines at hl
  split at hl
  · split at hl
    · simp at hl
    · split at hl
      · simp at hl
        exact ⟨_, hl⟩
      · simp at hl
  · simp at hl

theorem abLines_shape (a : Article) : ∀ l ∈ abLines a, ∃ s, l = "AB  - " ++ s := by
  intro l hl
  unfold abLines at hl
  split at hl
  · split at hl
    · simp at hl
    · simp at hl
      exact ⟨_, hl⟩
  · simp at hl

theorem kwLines_shape (a : Article) : ∀ l ∈ kwLines a, ∃ s, l = "KW  - " ++ s := by
  intro l hl
  unfold kwLines at hl
  split at hl
  · simp at hl
  · simp at hl
    exact ⟨_, hl⟩

theorem n1Lines_shape (a : Article) : ∀ l ∈ n1Lines a, ∃ s, l = "N1  - " ++ s := by
  intro l hl
  unfold n1Lines at hl
  split at hl
  · simp at hl
  · simp at hl
    exact ⟨_, hl⟩

theorem auLines_filterMap (authors : List String) :
    (authors.map (fun au => "AU  - " ++ au)).filterMap
      (fun l => if risHasTag "AU  - " l then some (risPayload l) else none)
      = authors := by
  rw [List.filterMap_map]
  have hcomp : ((fun l => if risHasTag "AU  - " l then some (risPayload l) else none)
      ∘ (fun au => "AU  - " ++ au)) = fun au => some au := by
    funext au
    simp [Function.comp, risHasTag_append_true "AU  - " au (by decide),
      risPayload_append "AU  - " au (by decide)]
  rw [hcomp, List.filterMap_some]

theorem auLines_find_none (tagA : String) (hne : "AU  - ".data ≠ tagA.data)
    (authors : List String) :
    (authors.map (fun au => "AU  - " ++ au)).find? (risHasTag tagA) = none := by
  apply List.find?_eq_none.mpr
  intro x hx
  rcases List.mem_map.mp hx with ⟨au, _, rfl⟩
  simp [risHasTag_append_false tagA "AU  - " au (by decide) hne]

theorem extractYear_empty : extractYear "" = none := rfl

/-- **C8.** For every article with a title, the emitted RIS tagged lines
begin with the `TY` line and end with the `ER` line (the `ER` line present
even when every optional tag is absent), and reading the tagged lines back
recovers the title (`TI`), the authors in order (`AU`), and the 4-digit
year (`PY`) whenever the stored date carries one. -/
theorem C8_ris_round_trip (a : Article) (L : List String)
    (hL : risRecordLines a = some L) :
    L.head? = some ("TY  - " ++ getRISType a.document_type)
  ∧ L.getLast? = some "ER  - "
  ∧ risParseTitle L = some a.title
  ∧ risParseAuthors L = a.authors
  ∧ (∀ d y, a.publication_date = some d → extractYear d = some y →
      risParseYear L = some y) := by
  have hT : ¬(a.title = "") := by
    intro h
    rw [risRecordLines, if_pos h] at hL
    exact Option.noConfusion hL
  rw [risRecordLines, if_neg hT] at hL
  injection hL with hLeq
  subst hLeq
  have hnorm : (["TY  - " ++ getRISType a.document_type, "TI  - " ++ a.title]
      ++ a.authors.map (fun au => "AU  - " ++ au) ++ pyLines a
      ++ optLine "T2  - " a.journal ++ optLine "JF  - " a.journal
      ++ optLine "VL  - " a.volume ++ optLine "IS  - " a.issue
      ++ abLines a ++ optLine "DO  - " a.doi ++ optLine "SN  - " a.issn
      ++ optLine "PB  - " a.publisher ++ optLine "LA  - " a.language
      ++ optLine "UR  - " a.detail_url ++ kwLines a ++ n1Lines a ++ ["ER  - "])
      = ("TY  - " ++ getRISType a.document_type) :: ("TI  - " ++ a.title) ::
        (a.authors.map (fun au => "AU  - " ++ au) ++ (pyLines a
        ++ (optLine "T2  - " a.journal ++ (optLine "JF  - " a.journal
        ++ (optLine "VL  - " a.volume ++ (optLine "IS  - " a.issue
        ++ (abLines a ++ (optLine "DO  - " a.doi ++ (optLine "SN  - " a.issn
        ++ (optLine "PB  - " a.publisher ++ (optLine "LA  - " a.language
        ++ (optLine "UR  - " a.detail_url ++ (kwLines a
        ++ (n1Lines a ++ ["ER  - "])))))))))))))) := by
    simp [List.append_assoc]
  refine ⟨?_, ?_, ?_, ?_, ?_⟩
  · rw [hnorm]
    rfl
  · exact List.getLast?_concat _
  · rw [hnorm]
    unfold risParseTitle
    rw [List.find?_cons_of_neg _
      (by simp [risHasTag_append_false "TI  - " "TY  - " _ (by decide) (by decide)])]
    rw [List.find?_cons_of_pos _
      (risHasTag_append_true "TI  - " a.title (by decide))]
    simp [risPayload_append "TI  - " a.title (by decide)]
  · rw [hnorm]
    unfold risParseAuthors
    have hty : (fun l => if risHasTag "AU  - " l then some (risPayload l) else none)
        ("TY  - " ++ getRISType a.document_type) = none := by
      simp [risHasTag_append_false "AU  - " "TY  - " _ (by decide) (by decide)]
    have hti : (fun l => if risHasTag "AU  - " l then some (risPayload l) else none)
        ("TI  - " ++ a.title) = none := by
      simp [risHasTag_append_false "AU  - " "TI  - " _ (by decide) (by decide)]
    have htail : ∀ l ∈ (pyLines a
        ++ (optLine "T2  - " a.journal ++ (optLine "JF  - " a.journal
        ++ (optLine "VL  - " a.volume ++ (optLine "IS  - " a.issue
        ++ (abLines a ++ (optLine "DO  - " a.doi ++ (optLine "SN  - " a.issn
        ++ (optLine "PB  - " a.publisher ++ (optLine "LA  - " a.language
        ++ (optLine "UR  - " a.detail_url ++ (kwLines a
        ++ (n1Lines a ++ ["ER  - "]))))))))))))),
        (fun l => if risHasTag "AU  - " l then some (risPayload l) else none) l
          = none := by
      intro l hl
      simp only [List.mem_append, List.mem_singleton] at hl
      rcases hl with h | h | h | h | h | h | h | h | h | h | h | h | h | h
      · obtain ⟨s, rfl⟩ := pyLines_shape a l h
        simp [risHasTag_append_false "AU  - " "PY  - " s (by decide) (by decide)]
      · obtain ⟨s, rfl⟩ := optLine_shape _ _ l h
        simp [risHasTag_append_false "AU  - " "T2  - " s (by decide) (by decide)]
      · obtain ⟨s, rfl⟩ := optLine_shape _ _ l h
        simp [risHasTag_append_false "AU  - " "JF  - " s (by decide) (by decide)]
      · obtain ⟨s, rfl⟩ := optLine_shape _ _ l h
        simp [risHasTag_append_false "AU  - " "VL  - " s (by decide) (by decide)]
      · obtain ⟨s, rfl⟩ := optLine_shape _ _ l h
        simp [risHasTag_append_false "AU  - " "IS  - " s (by decide) (by decide)]
      · obtain ⟨s, rfl⟩ := abLines_shape a l h
        simp [risHasTag_append_false "AU  - " "AB  - " s (by decide) (by decide)]
      · obtain ⟨s, rfl⟩ := optLine_shape _ _ l h
        simp [risHasTag_append_false "AU  - " "DO  - " s (by decide) (by decide)]
      · obtain ⟨s, rfl⟩ := optLine_shape _ _ l h
        simp [risHasTag_append_false "AU  - " "SN  - " s (by decide) (by decide)]
      · obtain ⟨s, rfl⟩ := optLine_shape _ _ l h
        simp [risHasTag_append_false "AU  - " "PB  - " s (by decide) (by decide)]
      · obtain ⟨s, rfl⟩ := optLine_shape _ _ l h
        simp [risHasTag_append_false "AU  - " "LA  - " s (by decide) (by decide)]
      · obtain ⟨s, rfl⟩ := optLine_shape _ _ l h
        simp [risHasTag_append_false "AU  - " "UR  - " s (by decide) (by decide)]
      · obtain ⟨s, rfl⟩ := kwLines_shape a l h
        simp [risHasTag_append_false "AU  - " "KW  - " s (by decide) (by decide)]
      · obtain ⟨s, rfl⟩ := n1Lines_shape a l h
        simp [risHasTag_append_false "AU  - " "N1  - " s (by decide) (by decide)]
      · subst h
        have her : risHasTag "AU  - " "ER  - " = false := by decide
        simp [her]
    have h0 := List.filterMap_eq_nil_iff.mpr htail
    simp only [List.filterMap_cons, hty, hti]
    rw [List.filterMap_append, auLines_filterMap, h0, List.append_nil]
  · intro d y hd hy
    have hdne : ¬(d = "") := by
      intro h0
      rw [h0, extractYear_empty] at hy
      exact Option.noConfusion hy
    have hpy : pyLines a = ["PY  - " ++ y] := by
      simp only [pyLines, hd, if_neg hdne, hy]
    rw [hnorm]
    unfold risParseYear
    rw [List.find?_cons_of_neg _
      (by simp [risHasTag_append_false "PY  - " "TY  - " _ (by decide) (by decide)])]
    rw [List.find?_cons_of_neg _
      (by simp [risHasTag_append_false "PY  - " "TI  - " _ (by decide) (by decide)])]
    rw [List.find?_append, auLines_find_none "PY  - " (by decide) a.authors, hpy]
    simp only [Option.none_or, List.singleton_append]
    rw [List.find?_cons_of_pos _ (risHasTag_append_true "PY  - " y (by decide))]
    simp [risPayload_append "PY  - " y (by decide)]

/-- Witness for C8 at a concrete titled article with two authors and a
dated publication. -/
theorem C8_witness :
    risParseTitle ((risRecordLines
      { title := "Alpha", authors := ["B", "C"],
        publication_date := some "2021-05", search_term := "q" }).getD [])
      = some "Alpha"
  ∧ risParseAuthors ((risRecordLines
      { title := "Alpha", authors := ["B", "C"],
        publication_date := some "2021-05", search_term := "q" }).getD [])
      = ["B", "C"]
  ∧ risParseYear ((risRecordLines
      { title := "Alpha", authors := ["B", "C"],
        publication_date := some "2021-05", search_term := "q" }).getD [])
      = some "2021" := by
  have h := C8_ris_round_trip
    { title := "Alpha", authors := ["B", "C"],
      publication_date := some "2021-05", search_term := "q" }
    ((risRecordLines
      { title := "Alpha", authors := ["B", "C"],
        publication_date := some "2021-05", search_term := "q" }).getD [])
    rfl
  exact ⟨h.2.2.1, h.2.2.2.1, h.2.2.2.2 "2021-05" "2021" rfl (by decide)⟩

/-- Witness for C6's amended statement: a listing without an identifier is
dropped, and the enricher output over an empty batch is empty. -/
theorem C6_witness :
    processArticle (fun _ => none) { title := "T", theme := "q", search_term := "q" }
      = none
  ∧ fetchArticleDetails (fun _ => none) (fun _ => none) (fun _ => none) 0 false
      none [] = [] := by
  have h := C6_drop_policy (fun _ => none) (fun _ => none) (fun _ => none) 0 none []
  refine ⟨h.2.1 { title := "T", theme := "q", search_term := "q" } rfl, ?_⟩
  rw [h.1]
  rfl
